import Mathlib

/-!
Verification of the flat sample buffer module (`src/flat.rs`).

Machine model: `usize` is 64 bits wide.  `usize` values are modelled as `Nat`
together with explicit checked (`checked_mul`, `checked_add`) and wrapping
(`wrap`) operations; `u8` and `u32` fields are modelled as `Nat`, with their
typing bounds (`≤ 255`, `< 2^32`, length of a slice fits in `usize`) supplied
as hypotheses where a statement depends on them.  The backing sample buffer is
modelled as a `List Nat`.  The phantom pixel type `P` of a view is modelled by
its channel arity `P::channel_count()`, a `u8` value.
-/

def USIZE_MOD : Nat := 2 ^ 64

def USIZE_MAX : Nat := 2 ^ 64 - 1

/-- Model of `usize::checked_mul`. -/
def checked_mul (a b : Nat) : Option Nat :=
  if a * b ≤ USIZE_MAX then some (a * b) else none

/-- Model of `usize::checked_add`. -/
def checked_add (a b : Nat) : Option Nat :=
  if a + b ≤ USIZE_MAX then some (a + b) else none

/-- Wrapping `usize` arithmetic (release-mode overflow semantics). -/
def wrap (n : Nat) : Nat := n % USIZE_MOD

/-- Model of `struct FlatSamples<Buffer>`: the buffer is a list of samples,
`channels` is a `u8`, `width` and `height` are `u32`, the strides are
`usize`. -/
structure FlatSamples where
  samples : List Nat
  channels : Nat
  channel_stride : Nat
  width : Nat
  width_stride : Nat
  height : Nat
  height_stride : Nat
deriving DecidableEq

/-- Model of `FlatSamples::strides_hwc`. -/
def FlatSamples.strides_hwc (s : FlatSamples) : Nat × Nat × Nat :=
  (s.height_stride, s.width_stride, s.channel_stride)

/-- Model of `FlatSamples::extents`. -/
def FlatSamples.extents (s : FlatSamples) : Nat × Nat × Nat :=
  (s.height, s.width, s.channels)

/-- Model of `FlatSamples::as_ref`: a field-by-field copy borrowing the same
samples. -/
def FlatSamples.as_ref (s : FlatSamples) : FlatSamples :=
  { samples := s.samples
    width_stride := s.width_stride
    height_stride := s.height_stride
    channel_stride := s.channel_stride
    width := s.width
    height := s.height
    channels := s.channels }

/-- Model of `FlatSamples::as_mut`: a field-by-field copy borrowing the same
samples. -/
def FlatSamples.as_mut (s : FlatSamples) : FlatSamples :=
  { samples := s.samples
    width_stride := s.width_stride
    height_stride := s.height_stride
    channel_stride := s.channel_stride
    width := s.width
    height := s.height
    channels := s.channels }

/-- Model of the local `struct Dim(usize, usize)` of `has_aliased_samples`:
first component the stride, second the count. -/
abbrev Dim : Type := Nat × Nat

/-- The derived `Ord` on `Dim`: lexicographic order, stride first, then
count. -/
def dimLe (a b : Dim) : Prop :=
  a.1 < b.1 ∨ (a.1 = b.1 ∧ a.2 ≤ b.2)

instance instDecidableDimLe (a b : Dim) : Decidable (dimLe a b) :=
  inferInstanceAs (Decidable (_ ∨ _))

/-- Rust `Ord::min`: returns the first argument when the two compare equal. -/
def dimMin (a b : Dim) : Dim := if dimLe a b then a else b

/-- Rust `Ord::max`: returns the second argument when the two compare equal. -/
def dimMax (a b : Dim) : Dim := if dimLe a b then b else a

/-- The `grouped` array of `has_aliased_samples`: the three axes as
(stride, count) pairs, in declaration order channel, width, height. -/
def FlatSamples.grouped (s : FlatSamples) : Dim × Dim × Dim :=
  ((s.channel_stride, s.channels),
   (s.width_stride, s.width),
   (s.height_stride, s.height))

/-- Value of `grouped.iter().min()` in `has_aliased_samples` (the minimal
element under the lexicographic order). -/
def FlatSamples.min_dim (s : FlatSamples) : Dim :=
  dimMin (dimMin s.grouped.1 s.grouped.2.1) s.grouped.2.2

/-- Value of `grouped.iter().max()` in `has_aliased_samples` (the maximal
element under the lexicographic order). -/
def FlatSamples.max_dim (s : FlatSamples) : Dim :=
  dimMax (dimMax s.grouped.1 s.grouped.2.1) s.grouped.2.2

/-- The `mid_dim` computation of `has_aliased_samples`:
`(grouped[0].max(grouped[1])).min(grouped[0].max(grouped[2]))`. -/
def FlatSamples.mid_dim (s : FlatSamples) : Dim :=
  dimMin (dimMax s.grouped.1 s.grouped.2.1) (dimMax s.grouped.1 s.grouped.2.2)

/-- Model of `FlatSamples::has_aliased_samples`.  `Dim::len` is
`stride.checked_mul(count)`; any overflow yields `true`, otherwise the
nesting conditions are checked. -/
def FlatSamples.has_aliased_samples (s : FlatSamples) : Bool :=
  match checked_mul s.min_dim.1 s.min_dim.2,
      checked_mul s.mid_dim.1 s.mid_dim.2,
      checked_mul s.max_dim.1 s.max_dim.2 with
  | some min_size, some mid_size, some _ =>
      decide (min_size > s.mid_dim.1) || decide (mid_size > s.max_dim.1)
  | _, _, _ => true

/-- Model of `FlatSamples::in_bounds`. -/
def FlatSamples.in_bounds (s : FlatSamples) (x y channel : Nat) : Bool :=
  decide (x < s.width) && decide (y < s.height) && decide (channel < s.channels)

/-- Model of `FlatSamples::index`: overflow-checked index resolution. -/
def FlatSamples.index (s : FlatSamples) (x y channel : Nat) : Option Nat :=
  if !(s.in_bounds x y channel) then none
  else
    match checked_mul channel s.channel_stride,
        checked_mul x s.width_stride,
        checked_mul y s.height_stride with
    | some idx_c, some idx_x, some idx_y =>
        (((some 0).bind fun b => checked_add b idx_c).bind
          fun b => checked_add b idx_x).bind
          fun b => checked_add b idx_y
    | _, _, _ => none

/-- Model of `FlatSamples::max_index`.  `Nat` subtraction is saturating, like
`u32::saturating_sub` and `u8::saturating_sub`. -/
def FlatSamples.max_index (s : FlatSamples) : Option Nat :=
  s.index (s.width - 1) (s.height - 1) (s.channels - 1)

/-- Model of `FlatSamples::in_bounds_index`: unchecked (wrapping) index
arithmetic in the order of the source, `y*hs + x*ws + c*cs`. -/
def FlatSamples.in_bounds_index (s : FlatSamples) (x y c : Nat) : Nat :=
  wrap (wrap (wrap (y * s.height_stride) + wrap (x * s.width_stride))
    + wrap (c * s.channel_stride))

/-- Model of `enum NormalForm`. -/
inductive NormalForm where
  | Unaliased
  | PixelPacked
  | RowMajorPacked
deriving DecidableEq

/-- Model of `enum Error`. -/
inductive FlatError where
  | TooLarge
  | NormalFormRequired (form : NormalForm)
  | WrongColor
deriving DecidableEq

/-- Model of `struct View<Buffer, P>`: the phantom pixel type is retained as
its channel arity. -/
structure View where
  inner : FlatSamples
  pixel_channels : Nat
deriving DecidableEq

/-- Model of `struct ViewMut<Buffer, P>`. -/
structure ViewMut where
  inner : FlatSamples
  pixel_channels : Nat
deriving DecidableEq

/-- Model of `FlatSamples::as_view::<P>`; the argument `P` is
`P::channel_count()`. -/
def FlatSamples.as_view (s : FlatSamples) (P : Nat) : Except FlatError View :=
  let ar := s.as_ref
  if ar.samples.length ≤ (s.max_index).getD USIZE_MAX then
    Except.error FlatError.TooLarge
  else if s.channels ≠ P then
    Except.error FlatError.WrongColor
  else
    Except.ok { inner := ar, pixel_channels := P }

/-- Model of `FlatSamples::as_view_mut::<P>`. -/
def FlatSamples.as_view_mut (s : FlatSamples) (P : Nat) : Except FlatError ViewMut :=
  if s.has_aliased_samples then
    Except.error (FlatError.NormalFormRequired NormalForm.Unaliased)
  else if s.channel_stride ≠ 1 then
    Except.error (FlatError.NormalFormRequired NormalForm.PixelPacked)
  else
    let mi := (s.max_index).getD USIZE_MAX
    let am := s.as_mut
    if am.samples.length ≤ mi then
      Except.error FlatError.TooLarge
    else
      Except.ok { inner := am, pixel_channels := P }

/-- The linear index read by the gather loop of `View::get_pixel` for channel
`c`: `base_index + c*channel_stride`, with wrapping `usize` arithmetic. -/
def FlatSamples.pixel_sample_index (s : FlatSamples) (x y c : Nat) : Nat :=
  wrap (s.in_bounds_index x y 0 + wrap (c * s.channel_stride))

/-- Size of the fixed scratch buffer `[Zero::zero(); 256]` of
`View::get_pixel`. -/
def scratch_size : Nat := 256

/-- Scratch-buffer cells written by the gather loop of `View::get_pixel`:
`buffer.iter_mut().enumerate().take(channels)` iterates over at most the 256
scratch cells. -/
def gather_indices (channels : Nat) : List Nat :=
  List.range (min channels scratch_size)

/-- Model of `View::get_pixel`.  `none` models a panic: out-of-bounds
coordinate, a sample read past the end of the buffer, or the final slice
`&buffer[..channels]` reaching past the scratch buffer. -/
def View.get_pixel (v : View) (x y : Nat) : Option (List Nat) :=
  if !(v.inner.in_bounds x y 0) then none
  else
    let reads := (gather_indices v.pixel_channels).map fun c =>
      v.inner.samples[v.inner.pixel_sample_index x y c]?
    if v.pixel_channels ≤ scratch_size ∧ reads.all fun r => r.isSome then
      some (reads.map fun r => r.getD 0)
    else none

instance instDecEqExcept {ε α : Type} [DecidableEq ε] [DecidableEq α] :
    DecidableEq (Except ε α) := fun a b =>
  match a, b with
  | Except.error e, Except.error f =>
      if h : e = f then isTrue (by rw [h])
      else isFalse fun hh => h (Except.error.inj hh)
  | Except.ok u, Except.ok v =>
      if h : u = v then isTrue (by rw [h])
      else isFalse fun hh => h (Except.ok.inj hh)
  | Except.error _, Except.ok _ => isFalse fun hh => Except.noConfusion hh
  | Except.ok _, Except.error _ => isFalse fun hh => Except.noConfusion hh

theorem wrap_eq_of_le {n : Nat} (h : n ≤ USIZE_MAX) : wrap n = n := by
  unfold wrap USIZE_MOD
  unfold USIZE_MAX at h
  omega

theorem FlatSamples.as_ref_eq (s : FlatSamples) : s.as_ref = s := rfl

theorem FlatSamples.as_mut_eq (s : FlatSamples) : s.as_mut = s := rfl

/-- Characterization of `index`: the checked computation succeeds exactly on
in-bounds coordinates whose full linear index fits in `usize`, and then
returns that index. -/
theorem index_eq_iff (s : FlatSamples) (x y c : Nat) :
    s.index x y c =
      if s.in_bounds x y c = true ∧
          x * s.width_stride + y * s.height_stride + c * s.channel_stride ≤ USIZE_MAX
      then some (x * s.width_stride + y * s.height_stride + c * s.channel_stride)
      else none := by
  by_cases hb : s.in_bounds x y c
  · by_cases h1 : c * s.channel_stride ≤ USIZE_MAX
    · by_cases h2 : x * s.width_stride ≤ USIZE_MAX
      · by_cases h3 : y * s.height_stride ≤ USIZE_MAX
        · simp only [FlatSamples.index, checked_mul, checked_add, hb, h1, h2, h3,
            Bool.not_true, Bool.false_eq_true, if_false, if_true, Option.some_bind,
            Nat.zero_add]
          split_ifs <;> simp_all <;> omega
        · simp only [FlatSamples.index, checked_mul, checked_add, hb, h1, h2, h3,
            Bool.not_true, Bool.false_eq_true, if_false, if_true]
          rw [if_neg]
          rintro ⟨-, ht⟩
          omega
      · simp only [FlatSamples.index, checked_mul, checked_add, hb, h1, h2,
          Bool.not_true, Bool.false_eq_true, if_false, if_true]
        rw [if_neg]
        rintro ⟨-, ht⟩
        omega
    · simp only [FlatSamples.index, checked_mul, checked_add, hb, h1,
        Bool.not_true, Bool.false_eq_true, if_false, if_true]
      rw [if_neg]
      rintro ⟨-, ht⟩
      omega
  · simp only [FlatSamples.index, hb, Bool.not_false, if_true]
    rw [if_neg]
    rintro ⟨hb2, -⟩
    exact absurd hb2 (by decide)

/-- The assert of `has_aliased_samples`: the selected minimal, middle and
maximal axes are ordered by ascending stride. -/
theorem dims_sorted (s : FlatSamples) :
    s.min_dim.1 ≤ s.mid_dim.1 ∧ s.mid_dim.1 ≤ s.max_dim.1 := by
  obtain ⟨sa, ch, cs, w, ws, h, hs⟩ := s
  simp only [FlatSamples.min_dim, FlatSamples.mid_dim, FlatSamples.max_dim,
    FlatSamples.grouped, dimMin, dimMax, dimLe]
  split_ifs <;> simp_all <;> omega

/-- Facts available after a successful `as_view`: the length check and the
channel-arity check both passed and the view wraps the same descriptor. -/
theorem as_view_ok_facts {s : FlatSamples} {P : Nat} {v : View}
    (hv : s.as_view P = Except.ok v) :
    (s.max_index).getD USIZE_MAX < s.samples.length ∧ s.channels = P ∧
      v.inner = s ∧ v.pixel_channels = P := by
  simp only [FlatSamples.as_view, FlatSamples.as_ref_eq] at hv
  by_cases h1 : s.samples.length ≤ (s.max_index).getD USIZE_MAX
  · rw [if_pos h1] at hv
    exact absurd hv (by simp)
  · rw [if_neg h1] at hv
    by_cases h2 : s.channels ≠ P
    · rw [if_pos h2] at hv
      exact absurd hv (by simp)
    · rw [if_neg h2] at hv
      have hveq := Except.ok.inj hv
      exact ⟨Nat.lt_of_not_le h1, not_not.mp h2, by rw [← hveq], by rw [← hveq]⟩

/-- When the full linear index fits in `usize`, the wrapping computation of
`in_bounds_index` returns it exactly. -/
theorem in_bounds_index_eq {s : FlatSamples} {x y c : Nat}
    (h : x * s.width_stride + y * s.height_stride + c * s.channel_stride ≤ USIZE_MAX) :
    s.in_bounds_index x y c =
      x * s.width_stride + y * s.height_stride + c * s.channel_stride := by
  unfold FlatSamples.in_bounds_index wrap USIZE_MOD
  unfold USIZE_MAX at h
  omega

/-- When the full linear index fits in `usize`, the wrapping computation of
the gather-loop read index returns it exactly. -/
theorem pixel_sample_index_eq {s : FlatSamples} {x y c : Nat}
    (h : x * s.width_stride + y * s.height_stride + c * s.channel_stride ≤ USIZE_MAX) :
    s.pixel_sample_index x y c =
      x * s.width_stride + y * s.height_stride + c * s.channel_stride := by
  unfold FlatSamples.pixel_sample_index FlatSamples.in_bounds_index wrap USIZE_MOD
  unfold USIZE_MAX at h
  omega

/-- The buffer of the source test `aliasing_view`: one sample, three channels,
100 by 100, all strides zero. -/
def sampleViewA : FlatSamples :=
  { samples := [42], channels := 3, channel_stride := 0,
    width := 100, width_stride := 0, height := 100, height_stride := 0 }

/-- The read-only view produced by `sampleViewA.as_view 3`. -/
def viewA : View := { inner := sampleViewA.as_ref, pixel_channels := 3 }

/-- C3: for every coordinate and any strides, `index` returns exactly
`x*width_stride + y*height_stride + c*channel_stride` when the coordinate is
in bounds and the three per-axis multiplications and the summation fit in
`usize`, and returns `none` for every out-of-bounds coordinate and for every
in-bounds coordinate whose computation overflows. -/
theorem index_resolution (s : FlatSamples) (x y c : Nat) :
    s.index x y c =
      if s.in_bounds x y c = true ∧ c * s.channel_stride ≤ USIZE_MAX ∧
          x * s.width_stride ≤ USIZE_MAX ∧ y * s.height_stride ≤ USIZE_MAX ∧
          x * s.width_stride + y * s.height_stride + c * s.channel_stride ≤ USIZE_MAX
      then some (x * s.width_stride + y * s.height_stride + c * s.channel_stride)
      else none := by
  rw [index_eq_iff]
  refine if_congr ⟨fun h => ?_, fun h => ?_⟩ rfl rfl
  · obtain ⟨h1, h2⟩ := h
    exact ⟨h1, by omega, by omega, by omega, h2⟩
  · obtain ⟨h1, -, -, -, h2⟩ := h
    exact ⟨h1, h2⟩

/-- C9: whenever the overflow-checked `index` resolves a coordinate to `some i`,
the fast unchecked computation `in_bounds_index` returns the same value `i`. -/
theorem in_bounds_index_agrees (s : FlatSamples) (x y c i : Nat)
    (h : s.index x y c = some i) :
    s.in_bounds_index x y c = i := by
  rw [index_eq_iff] at h
  by_cases hcond : s.in_bounds x y c = true ∧
      x * s.width_stride + y * s.height_stride + c * s.channel_stride ≤ USIZE_MAX
  · rw [if_pos hcond] at h
    rw [in_bounds_index_eq hcond.2]
    exact Option.some.inj h
  · rw [if_neg hcond] at h
    exact absurd h (by simp)

theorem in_bounds_index_agrees_witness : sampleViewA.in_bounds_index 1 2 1 = 0 :=
  in_bounds_index_agrees sampleViewA 1 2 1 0 (by decide)

/-- C1: if `as_view::<P>` succeeds then, for every coordinate (x, y) inside
the declared width and height and every channel `c` below the arity of `P`,
the linear index read by `get_pixel` — the base index plus `c` times the
channel stride — is computed without arithmetic overflow and is strictly
smaller than the length of the backing sample slice. -/
theorem as_view_pixel_reads_memsafe (s : FlatSamples) (P : Nat) (v : View)
    (x y c : Nat)
    (hlen : s.samples.length ≤ USIZE_MAX)
    (hv : s.as_view P = Except.ok v)
    (hx : x < s.width) (hy : y < s.height) (hc : c < P) :
    x * s.width_stride + y * s.height_stride + c * s.channel_stride ≤ USIZE_MAX ∧
    v.inner.pixel_sample_index x y c =
      x * s.width_stride + y * s.height_stride + c * s.channel_stride ∧
    v.inner.pixel_sample_index x y c < v.inner.samples.length := by
  obtain ⟨hlt, hch, hvi, hvp⟩ := as_view_ok_facts hv
  rw [hvi]
  obtain ⟨m, hm⟩ : ∃ m, s.max_index = some m := by
    cases hmi : s.max_index with
    | none =>
        rw [hmi] at hlt
        simp only [Option.getD_none] at hlt
        omega
    | some m => exact ⟨m, rfl⟩
  rw [hm, Option.getD_some] at hlt
  have hm2 := hm
  rw [FlatSamples.max_index, index_eq_iff] at hm2
  by_cases hcond : s.in_bounds (s.width - 1) (s.height - 1) (s.channels - 1) = true ∧
      (s.width - 1) * s.width_stride + (s.height - 1) * s.height_stride +
        (s.channels - 1) * s.channel_stride ≤ USIZE_MAX
  · rw [if_pos hcond] at hm2
    have hmval := Option.some.inj hm2
    have hmmax := hcond.2
    have hxm : x * s.width_stride ≤ (s.width - 1) * s.width_stride :=
      Nat.mul_le_mul_right _ (by omega)
    have hym : y * s.height_stride ≤ (s.height - 1) * s.height_stride :=
      Nat.mul_le_mul_right _ (by omega)
    have hcm : c * s.channel_stride ≤ (s.channels - 1) * s.channel_stride :=
      Nat.mul_le_mul_right _ (by omega)
    have htmax : x * s.width_stride + y * s.height_stride + c * s.channel_stride ≤
        USIZE_MAX := by omega
    refine ⟨htmax, pixel_sample_index_eq htmax, ?_⟩
    rw [pixel_sample_index_eq htmax]
    omega
  · rw [if_neg hcond] at hm2
    exact absurd hm2 (by simp)

theorem as_view_pixel_reads_memsafe_witness :
    1 * sampleViewA.width_stride + 2 * sampleViewA.height_stride +
      1 * sampleViewA.channel_stride ≤ USIZE_MAX ∧
    viewA.inner.pixel_sample_index 1 2 1 =
      1 * sampleViewA.width_stride + 2 * sampleViewA.height_stride +
        1 * sampleViewA.channel_stride ∧
    viewA.inner.pixel_sample_index 1 2 1 < viewA.inner.samples.length :=
  as_view_pixel_reads_memsafe sampleViewA 3 viewA 1 2 1 (by decide) (by decide)
    (by decide) (by decide) (by decide)

/-- A descriptor with a zero width stride and two columns: coordinates
(0,0,0) and (1,0,0) are distinct, in bounds, and resolve to the same linear
index. -/
def aliasedZeroStride : FlatSamples :=
  { samples := [0], channels := 1, channel_stride := 1,
    width := 2, width_stride := 0, height := 1, height_stride := 2 }

/-- C2 (refuted by the code): `aliasedZeroStride` has two distinct in-bounds
coordinate triples resolving to the same linear index 0, yet
`has_aliased_samples` reports no aliasing and `as_view_mut` succeeds instead
of failing with `NormalFormRequired(Unaliased)`. -/
theorem has_aliased_samples_false_negative :
    ((0 : Nat), (0 : Nat), (0 : Nat)) ≠ ((1 : Nat), (0 : Nat), (0 : Nat)) ∧
    aliasedZeroStride.in_bounds 0 0 0 = true ∧
    aliasedZeroStride.in_bounds 1 0 0 = true ∧
    aliasedZeroStride.index 0 0 0 = some 0 ∧
    aliasedZeroStride.index 1 0 0 = some 0 ∧
    aliasedZeroStride.has_aliased_samples = false ∧
    aliasedZeroStride.as_view_mut 1 =
      Except.ok { inner := aliasedZeroStride.as_mut, pixel_channels := 1 } :=
  ⟨by decide, by decide, by decide, by decide, by decide, by decide, by decide⟩

/-- An alias-free planar layout whose channel axis has the strictly largest
stride: the axes sorted by ascending stride are (1,2), (10,2), (100,2), with
footprints 2, 20, 200, and the nesting conditions 2 <= 10 and 20 <= 100 both
hold. -/
def planarLayout : FlatSamples :=
  { samples := [], channels := 2, channel_stride := 100,
    width := 2, width_stride := 1, height := 2, height_stride := 10 }

/-- A layout with nonzero strides where two distinct in-bounds coordinates
alias: the axes sorted by ascending stride are (1,3), (2,3), (100,1), and the
smallest footprint 3 exceeds the middle stride 2. -/
def skewedLayout : FlatSamples :=
  { samples := [], channels := 1, channel_stride := 100,
    width := 3, width_stride := 1, height := 3, height_stride := 2 }

/-- C8 (refuted by the code): the `mid_dim` formula
`(grouped[0].max(grouped[1])).min(grouped[0].max(grouped[2]))` selects the
maximal axis, not the median, whenever the channel axis is the strict
lexicographic maximum, so the footprint of the middle stride-sorted axis is
never checked.  On `planarLayout` every one of the eight in-bounds coordinate
triples resolves to a distinct index and the claimed stride-sorted nesting
conditions hold, so the claim requires `false`, yet `mid_dim` is the maximal
axis (100,2) instead of the median (10,2) and the code returns `true`.
Conversely, on `skewedLayout` the claim requires `true` — the smallest
footprint 3 exceeds the middle stride 2, and indeed the distinct in-bounds
coordinates (2,0,0) and (0,1,0) both resolve to index 2 — yet `mid_dim` is
again the maximal axis (100,1) and the code returns `false`. -/
theorem has_aliased_samples_mid_dim_not_median :
    (planarLayout.min_dim = ((1 : Nat), (2 : Nat)) ∧
     planarLayout.mid_dim = ((100 : Nat), (2 : Nat)) ∧
     planarLayout.max_dim = ((100 : Nat), (2 : Nat)) ∧
     [planarLayout.index 0 0 0, planarLayout.index 1 0 0,
      planarLayout.index 0 1 0, planarLayout.index 1 1 0,
      planarLayout.index 0 0 1, planarLayout.index 1 0 1,
      planarLayout.index 0 1 1, planarLayout.index 1 1 1].Nodup ∧
     planarLayout.has_aliased_samples = true) ∧
    (skewedLayout.min_dim = ((1 : Nat), (3 : Nat)) ∧
     skewedLayout.mid_dim = ((100 : Nat), (1 : Nat)) ∧
     skewedLayout.max_dim = ((100 : Nat), (1 : Nat)) ∧
     ((2 : Nat), (0 : Nat), (0 : Nat)) ≠ ((0 : Nat), (1 : Nat), (0 : Nat)) ∧
     skewedLayout.in_bounds 2 0 0 = true ∧
     skewedLayout.in_bounds 0 1 0 = true ∧
     skewedLayout.index 2 0 0 = some 2 ∧
     skewedLayout.index 0 1 0 = some 2 ∧
     skewedLayout.has_aliased_samples = false) :=
  ⟨⟨by decide, by decide, by decide, by decide, by decide⟩,
   ⟨by decide, by decide, by decide, by decide, by decide, by decide,
    by decide, by decide, by decide⟩⟩

/-- Scenario E: a 2-channel, 3-by-1 geometry whose maximum reachable index is
5, with a 5-sample buffer: one sample short. -/
def shortBuffer : FlatSamples :=
  { samples := [0, 0, 0, 0, 0], channels := 2, channel_stride := 1,
    width := 3, width_stride := 2, height := 1, height_stride := 6 }

/-- C4: view construction fails with `TooLarge` exactly when the storage
length does not strictly exceed the maximum reachable index; when `max_index`
is undefined the read-view check fails unconditionally; the length step of
`as_view_mut` behaves identically once the two normal-form checks have
passed. -/
theorem as_view_too_large (s : FlatSamples) (P : Nat)
    (hlen : s.samples.length ≤ USIZE_MAX) :
    (s.as_view P = Except.error FlatError.TooLarge ↔
      s.samples.length ≤ (s.max_index).getD USIZE_MAX) ∧
    (s.max_index = none → s.as_view P = Except.error FlatError.TooLarge) ∧
    (s.has_aliased_samples = false → s.channel_stride = 1 →
      (s.as_view_mut P = Except.error FlatError.TooLarge ↔
        s.samples.length ≤ (s.max_index).getD USIZE_MAX)) := by
  refine ⟨?_, ?_, fun ha hcs => ?_⟩
  · simp only [FlatSamples.as_view, FlatSamples.as_ref_eq]
    by_cases h1 : s.samples.length ≤ (s.max_index).getD USIZE_MAX
    · rw [if_pos h1]
      simp [h1]
    · rw [if_neg h1]
      by_cases h2 : s.channels ≠ P
      · rw [if_pos h2]
        simp [h1]
      · rw [if_neg h2]
        simp [h1]
  · intro hnone
    simp only [FlatSamples.as_view, FlatSamples.as_ref_eq, hnone, Option.getD_none]
    rw [if_pos hlen]
  · simp only [FlatSamples.as_view_mut, FlatSamples.as_mut_eq, ha, hcs,
      Bool.false_eq_true, if_false, ne_eq, not_true_eq_false]
    by_cases h1 : s.samples.length ≤ (s.max_index).getD USIZE_MAX
    · rw [if_pos h1]
      simp [h1]
    · rw [if_neg h1]
      simp [h1]

theorem as_view_too_large_witness :
    shortBuffer.as_view 2 = Except.error FlatError.TooLarge :=
  (as_view_too_large shortBuffer 2 (by decide)).1.mpr (by decide)

/-- An aliased geometry whose channel stride nevertheless equals one: two
columns with width stride 1 but two channels per pixel. -/
def aliasedPacked : FlatSamples :=
  { samples := [0, 0], channels := 2, channel_stride := 1,
    width := 2, width_stride := 1, height := 1, height_stride := 1 }

/-- An unaliased geometry whose channel stride is two, so it is not
pixel-packed. -/
def stridedNotPacked : FlatSamples :=
  { samples := [0, 0, 0], channels := 1, channel_stride := 2,
    width := 1, width_stride := 0, height := 1, height_stride := 0 }

/-- C5: `as_view_mut` validates aliasing first, then channel-sample
contiguity, then storage length; the first failing check determines the
error, and when all pass the mutable view is produced. -/
theorem as_view_mut_check_order (s : FlatSamples) (P : Nat) :
    (s.has_aliased_samples = true →
      s.as_view_mut P =
        Except.error (FlatError.NormalFormRequired NormalForm.Unaliased)) ∧
    (s.has_aliased_samples = false → s.channel_stride ≠ 1 →
      s.as_view_mut P =
        Except.error (FlatError.NormalFormRequired NormalForm.PixelPacked)) ∧
    (s.has_aliased_samples = false → s.channel_stride = 1 →
      s.samples.length ≤ (s.max_index).getD USIZE_MAX →
      s.as_view_mut P = Except.error FlatError.TooLarge) ∧
    (s.has_aliased_samples = false → s.channel_stride = 1 →
      (s.max_index).getD USIZE_MAX < s.samples.length →
      s.as_view_mut P = Except.ok { inner := s.as_mut, pixel_channels := P }) := by
  refine ⟨fun h => ?_, fun h hcs => ?_, fun h hcs hl => ?_, fun h hcs hl => ?_⟩
  · simp [FlatSamples.as_view_mut, h]
  · simp [FlatSamples.as_view_mut, h, hcs]
  · simp [FlatSamples.as_view_mut, FlatSamples.as_mut_eq, h, hcs, hl]
  · simp [FlatSamples.as_view_mut, FlatSamples.as_mut_eq, h, hcs, Nat.not_le.mpr hl]

theorem as_view_mut_check_order_witness :
    aliasedPacked.as_view_mut 2 =
      Except.error (FlatError.NormalFormRequired NormalForm.Unaliased) ∧
    stridedNotPacked.as_view_mut 1 =
      Except.error (FlatError.NormalFormRequired NormalForm.PixelPacked) :=
  ⟨(as_view_mut_check_order aliasedPacked 2).1 (by decide),
   (as_view_mut_check_order stridedNotPacked 1).2.1 (by decide) (by decide)⟩

/-- A degenerate geometry with zero width, a matching 3-channel arity and a
non-empty buffer. -/
def degenerateWidth : FlatSamples :=
  { samples := [0, 0, 0], channels := 3, channel_stride := 1,
    width := 0, width_stride := 3, height := 1, height_stride := 0 }

/-- C6 (counterexample): on a degenerate geometry with width zero and a
matching channel arity, `max_index` completes and returns `none`, but
`as_view` fails with `TooLarge` instead of succeeding vacuously. -/
theorem degenerate_view_not_ok :
    degenerateWidth.width = 0 ∧
    degenerateWidth.channels = 3 ∧
    degenerateWidth.max_index = none ∧
    degenerateWidth.as_view 3 = Except.error FlatError.TooLarge :=
  ⟨rfl, rfl, by decide, by decide⟩

/-- C6 (amended): for every descriptor with width, height, or channels equal
to zero, `max_index` completes without underflow and returns `none` (the
saturated coordinate is out of bounds), and `as_view` on such a geometry
always fails with `TooLarge`, whatever the buffer and requested arity. -/
theorem degenerate_geometry_rejected (s : FlatSamples) (P : Nat)
    (hlen : s.samples.length ≤ USIZE_MAX)
    (hdeg : s.width = 0 ∨ s.height = 0 ∨ s.channels = 0) :
    s.max_index = none ∧ s.as_view P = Except.error FlatError.TooLarge := by
  have hmi : s.max_index = none := by
    rw [FlatSamples.max_index, index_eq_iff]
    rw [if_neg]
    rintro ⟨hb, -⟩
    simp only [FlatSamples.in_bounds, Bool.and_eq_true, decide_eq_true_eq] at hb
    omega
  refine ⟨hmi, ?_⟩
  simp only [FlatSamples.as_view, FlatSamples.as_ref_eq, hmi, Option.getD_none]
  rw [if_pos hlen]

theorem degenerate_geometry_rejected_witness :
    degenerateWidth.max_index = none ∧
    degenerateWidth.as_view 5 = Except.error FlatError.TooLarge :=
  degenerate_geometry_rejected degenerateWidth 5 (by decide) (Or.inl rfl)

/-- A descriptor whose channel count mismatches a requested arity of two and
whose buffer is empty, so the length check fails first. -/
def emptyWrongColor : FlatSamples :=
  { samples := [], channels := 1, channel_stride := 0,
    width := 1, width_stride := 0, height := 1, height_stride := 0 }

/-- C7 (counterexample): a descriptor whose channel count 1 differs from the
requested arity 2 does not report `WrongColor` for every buffer length; with
an empty buffer the length check runs first and reports `TooLarge`. -/
theorem wrong_color_not_first :
    emptyWrongColor.channels ≠ 2 ∧
    emptyWrongColor.as_view 2 = Except.error FlatError.TooLarge :=
  ⟨by decide, by decide⟩

/-- C7 (amended): whenever the declared channel count differs from the
requested pixel arity and the length check passes, `as_view` fails with
`WrongColor`. -/
theorem wrong_color_when_length_ok (s : FlatSamples) (P : Nat)
    (hch : s.channels ≠ P)
    (hlen : (s.max_index).getD USIZE_MAX < s.samples.length) :
    s.as_view P = Except.error FlatError.WrongColor := by
  simp only [FlatSamples.as_view, FlatSamples.as_ref_eq]
  rw [if_neg (Nat.not_le.mpr hlen), if_pos hch]

theorem wrong_color_when_length_ok_witness :
    sampleViewA.as_view 4 = Except.error FlatError.WrongColor :=
  wrong_color_when_length_ok sampleViewA 4 (by decide) (by decide)

/-- C10: the 256-cell scratch buffer of `get_pixel` is never overrun: for a
`u8` channel arity (at most 255) the gather loop writes exactly the cells
below the arity, all inside the scratch buffer, and the final slice bound is
within the scratch buffer as well. -/
theorem scratch_buffer_safe (v : View) (hP : v.pixel_channels ≤ 255) :
    ((gather_indices v.pixel_channels).all fun c => decide (c < scratch_size))
      = true ∧
    gather_indices v.pixel_channels = List.range v.pixel_channels ∧
    v.pixel_channels ≤ scratch_size := by
  have hmin : min v.pixel_channels scratch_size = v.pixel_channels := by
    unfold scratch_size
    omega
  refine ⟨?_, ?_, by unfold scratch_size; omega⟩
  · simp only [List.all_eq_true, gather_indices, hmin, List.mem_range,
      decide_eq_true_eq]
    intro c hc
    unfold scratch_size
    omega
  · simp only [gather_indices, hmin]

theorem scratch_buffer_safe_witness :
    ((gather_indices viewA.pixel_channels).all fun c => decide (c < scratch_size))
      = true ∧
    gather_indices viewA.pixel_channels = List.range viewA.pixel_channels ∧
    viewA.pixel_channels ≤ scratch_size :=
  scratch_buffer_safe viewA (by decide)
